import Mathlib

/-!
Verification of the job-orchestration core of the `agent-prm` repository
against its natural-language specification.

The development shallowly embeds, from the Python sources:
  * `src/rate_limiter.py` — the sliding-window rate limiter with its two
    backends (Redis sorted set / in-process list of timestamps) and the
    `rate_limit` decorator;
  * `src/agents/orchestrator.py` — the multi-agent fan-out/fan-in
    orchestrator with its per-file aggregation;
  * `src/agents/security_agent.py` (and the performance / architecture /
    quality agents) — report construction and issue sanitisation;
  * `src/main.py` — the task store (`save_task` / `get_task`) and the job
    lifecycle driver (`process_pr_analysis`, `analyze_pr`).

Machine integers are modelled as `Int` (Python ints are unbounded); the
float wall clock `time.time()` is modelled as `ℚ` (every float value is
rational, and the limiter's behaviour depends on its sub-second
fraction); the Redis sorted set of a rate-limit key is a `Finset Int`
(member `str(t)` with integer score `t = int(time.time())`; `str` is
injective on ints); Python exceptions are `Except` values.
-/

namespace AgentPRM

/-! ## Rate limiter (src/rate_limiter.py)

A limiter call is parameterised by `key`, the current timestamp `now`,
`maxReq` (= `max_requests`) and `window` (= `window_seconds`).  The
in-memory store maps a key to its list of recorded timestamps (Python:
`self.in_memory_store`, defaulting to `[]` for unseen keys); the Redis
store maps a key to the sorted set of recorded timestamps. -/

/-- `RateLimiter._check_memory`: `current = time.time()` keeps its
sub-second fraction (a Python float; every float value is rational, so
the wall-clock timestamp is modelled as `ℚ`).  The list comprehension
drops entries with `t <= now - window_seconds` (it keeps
`t > window_start`), `now` is appended, and the call reports
`(request_count <= max_requests, request_count)`. -/
def memCheck (store : String → List ℚ) (key : String) (now : ℚ) (maxReq window : Int) :
    (Bool × Int) × (String → List ℚ) :=
  let windowStart := now - (window : ℚ)
  let kept := (store key).filter (fun t => windowStart < t)
  let updated := kept ++ [now]
  let count : Int := updated.length
  ((decide (count ≤ maxReq), count), fun k => if k = key then updated else store k)

/-- The Redis pipeline body of `RateLimiter._check_redis`, acting on the
integer score `current = int(time.time())`:
`zremrangebyscore key 0 window_start` (removes members whose score lies in
`[0, window_start]`, i.e. keeps `t < 0 ∨ t > window_start`), then
`zadd key {str(current): current}` (set insertion: a member equal to
`str(current)` is not duplicated), then `zcard key` (the reported count).
The trailing `expire` only sets a TTL and does not change the member set. -/
def redisPipeline (zset : Finset Int) (current window : Int) : Finset Int × Int :=
  let windowStart := current - window
  let kept := zset.filter (fun t => t < 0 ∨ windowStart < t)
  let updated := insert current kept
  (updated, (updated.card : Int))

/-- `RateLimiter._check_redis`, successful path: truncate the wall-clock
timestamp to whole seconds (`int()` truncates toward zero, which on the
non-negative clock is the floor), run the pipeline on the key's sorted
set and report `(request_count <= max_requests, request_count)`. -/
def redisCheck (store : String → Finset Int) (key : String) (now : ℚ) (maxReq window : Int) :
    (Bool × Int) × (String → Finset Int) :=
  let current := ⌊now⌋
  let r := redisPipeline (store key) current window
  ((decide (r.2 ≤ maxReq), r.2), fun k => if k = key then r.1 else store k)

/-- The `try`/`except` wrapper of `RateLimiter._check_redis`: the whole
remove/add/count/expire interaction is one `Except`-valued computation;
any raised exception is caught and the check returns `(True, 0)`
(fail-open), otherwise `(count <= max_requests, count)` from the `zcard`
reply (`results[2]`). -/
def checkRedisCaught (exec : Except String (Finset Int × Int)) (maxReq : Int) : Bool × Int :=
  match exec with
  | .error _ => (true, 0)
  | .ok r => (decide (r.2 ≤ maxReq), r.2)

/-- A single-process sequence of `check_rate_limit` calls against the
in-memory backend: each call is `(key, now, max_requests, window_seconds)`
with `now` the wall-clock timestamp, and yields the `(allowed, count)`
pair. -/
def memRun (store : String → List ℚ) : List (String × ℚ × Int × Int) → List (Bool × Int)
  | [] => []
  | (key, now, maxReq, window) :: calls =>
    let r := memCheck store key now maxReq window
    r.1 :: memRun r.2 calls

/-- The same sequence of `check_rate_limit` calls against the healthy
Redis backend (which sees each call's timestamp truncated to seconds). -/
def redisRun (store : String → Finset Int) : List (String × ℚ × Int × Int) → List (Bool × Int)
  | [] => []
  | (key, now, maxReq, window) :: calls =>
    let r := redisCheck store key now maxReq window
    r.1 :: redisRun r.2 calls

/-- The wall-clock timestamps of a call sequence, in order. -/
def callTimes (calls : List (String × ℚ × Int × Int)) : List ℚ :=
  calls.map (fun c => c.2.1)

/-- `RateLimiter.get_remaining_requests`: a derived read that performs a
full `check_rate_limit` (hence also records a timestamp) and returns
`max 0 (max_requests - current_count)`.  Modelled for the in-memory
backend, which is the backend of the state it threads. -/
def getRemaining (store : String → List ℚ) (key : String) (now : ℚ) (maxReq window : Int) :
    Int × (String → List ℚ) :=
  let r := memCheck store key now maxReq window
  (max 0 (maxReq - r.1.2), r.2)

/-! ## Agents and orchestrator (src/agents/)

An issue dict is modelled by the fields the embedded code reads:
`file` and `line` may be absent (`none` also stands for JSON `null` on
`line`, which the sanitiser treats like an absent key), and `severity` /
`impact` feed the per-agent summary tallies.  The `type`, `subtype`,
`description` and `suggestion` keys are carried opaquely by the Python
code and never inspected by the orchestrator or the sanitiser, so they
are omitted from the model. -/

structure Issue where
  file : Option String
  line : Option Int
  severity : Option String
  impact : Option String
deriving DecidableEq

/-- The summary dict of one agent.  Each agent populates its own subset
of keys; a key the agent does not emit is `none`.  The orchestrator probes
`total_issues`, `critical`, `high`, `high_severity` and `high_impact`
with `if key in agent_summary`. -/
structure AgentSummary where
  total_issues : Option Nat
  critical : Option Nat
  high : Option Nat
  medium : Option Nat
  low : Option Nat
  high_impact : Option Nat
  medium_impact : Option Nat
  low_impact : Option Nat
  high_severity : Option Nat
  medium_severity : Option Nat
  low_severity : Option Nat
deriving DecidableEq

/-- One agent's result dict as consumed by the orchestrator.  The error
dict produced for a failed agent carries `"summary": {}`; that empty dict
(no probed key present) is modelled as `summary = none`. -/
structure AgentResult where
  agent : String
  issues : List Issue
  summary : Option AgentSummary
  error : Option String
deriving DecidableEq

/-- `AgentOrchestrator._run_agent`: call `agent.analyze(context)` and
catch any exception, converting it into the error dict
`{"agent": key, "error": str(e), "issues": [], "summary": {}}`. -/
def runAgent (agentKey : String) (outcome : Except String AgentResult) : AgentResult :=
  match outcome with
  | .ok r => r
  | .error e => { agent := agentKey, issues := [], summary := none, error := some e }

/-- An issue as it appears in the aggregated per-file output:
`issue_with_agent = issue.copy(); issue_with_agent["detected_by"] = agent_key`. -/
structure TaggedIssue where
  issue : Issue
  detected_by : String
deriving DecidableEq

/-- One value of `file_issues_map`: `{"name": filename, "issues": [...],
"agent_breakdown": {...}}`.  Python dicts preserve insertion order, so the
map and the breakdown are insertion-ordered association lists. -/
structure FileGroup where
  name : String
  issues : List TaggedIssue
  agent_breakdown : List (String × Nat)
deriving DecidableEq

/-- Increment `agent_breakdown[agent_key]`, initialising it to 0 first
when absent (so a fresh key ends at 1, appended at the end). -/
def bumpAgent : List (String × Nat) → String → List (String × Nat)
  | [], k => [(k, 1)]
  | (k', n) :: rest, k =>
    if k' = k then (k', n + 1) :: rest else (k', n) :: bumpAgent rest k

/-- Insert one issue under the bucket `name` into the insertion-ordered
`file_issues_map`, creating the bucket at the end when missing. -/
def insertIssue (name agentKey : String) (i : Issue) : List FileGroup → List FileGroup
  | [] => [{ name := name, issues := [⟨i, agentKey⟩], agent_breakdown := [(agentKey, 1)] }]
  | g :: rest =>
    if g.name = name then
      { g with issues := g.issues ++ [⟨i, agentKey⟩],
               agent_breakdown := bumpAgent g.agent_breakdown agentKey } :: rest
    else g :: insertIssue name agentKey i rest

/-- One loop body of the aggregation: `filename = issue.get("file",
"unknown")` — the default applies only when the key is absent; a present
empty string is kept as the bucket name. -/
def addIssue (groups : List FileGroup) (agentKey : String) (i : Issue) : List FileGroup :=
  insertIssue (i.file.getD "unknown") agentKey i groups

/-- The aggregation loops of `AgentOrchestrator.analyze_pr` (lines
128–153): walk the reports in order and each report's issues in order. -/
def aggregateFiles (reports : List (String × AgentResult)) : List FileGroup :=
  reports.foldl (fun gs kr => kr.2.issues.foldl (fun gs' i => addIssue gs' kr.1 i) gs) []

/-- The running `(total_issues, critical_issues, high_priority_issues)`
statistics update of the collection loop: each probed key contributes only
when present in the agent's summary (an absent summary dict key adds 0). -/
def addSummary (acc : Nat × Nat × Nat) (r : AgentResult) : Nat × Nat × Nat :=
  match r.summary with
  | none => acc
  | some s =>
    (acc.1 + s.total_issues.getD 0,
     acc.2.1 + s.critical.getD 0,
     acc.2.2 + s.high.getD 0 + s.high_severity.getD 0 + s.high_impact.getD 0)

/-- The `results["summary"]` dict of `AgentOrchestrator.analyze_pr`. -/
structure OrchSummary where
  total_agents : Nat
  agents_completed : Nat
  total_issues : Nat
  critical_issues : Nat
  high_priority_issues : Nat
  total_files : Nat
deriving DecidableEq

/-- The orchestrator's return value: the per-agent results dict, the
summary, and the per-file aggregation (`list(file_issues_map.values())`). -/
structure OrchResults where
  agents : List (String × AgentResult)
  summary : OrchSummary
  files : List FileGroup
deriving DecidableEq

/-- `AgentOrchestrator.analyze_pr` over a roster of dispatched agents,
each given with its key and the outcome of its `analyze` call (`.error`
= the call raised).  `_run_agent` never lets an exception escape, so
`future.result()` always yields a dict, every agent's entry is recorded,
and `agents_completed` is incremented once per dispatched agent;
`total_agents = len(self.agents)` is the roster size.  Results are
processed in roster order (the real `as_completed` order is a
permutation of it; no claim depends on the order). -/
def analyzePr (roster : List (String × Except String AgentResult)) : OrchResults :=
  let reports := roster.map (fun p => (p.1, runAgent p.1 p.2))
  let acc := reports.foldl (fun a kr => addSummary a kr.2) (0, 0, 0)
  let files := aggregateFiles reports
  { agents := reports
    summary := { total_agents := roster.length
                 agents_completed := roster.length
                 total_issues := acc.1
                 critical_issues := acc.2.1
                 high_priority_issues := acc.2.2
                 total_files := files.length }
    files := files }

/-! ### The four concrete agents

Each agent's `analyze(context)` fans out over the job's files and builds
its result dict from the per-file issue lists.  The per-file lists
delivered by the opaque LLM collaborator (already JSON-parsed; non-list
payloads degrade to `[]` in `_analyze_file`) are the model's input, one
`(filename, issues)` pair per analysed file.  A whole-call failure is an
`Except.error` fed to `runAgent`. -/

def countSeverity (issues : List Issue) (sev : String) : Nat :=
  issues.countP (fun i => decide (i.severity = some sev))

def countImpact (issues : List Issue) (imp : String) : Nat :=
  issues.countP (fun i => decide (i.impact = some imp))

/-- `SecurityAgent._sanitize_issues`, one issue: a present, non-null line
that is `< 1` (or `== 0`) becomes `None`; an absent or falsy (empty)
`file` becomes `"unknown"`. -/
def sanitizeIssue (i : Issue) : Issue :=
  let line := match i.line with
    | some n => if n < 1 ∨ n = 0 then none else some n
    | none => none
  let file := match i.file with
    | none => some "unknown"
    | some s => if s = "" then some "unknown" else some s
  { i with line := line, file := file }

def sanitizeIssues (issues : List Issue) : List Issue := issues.map sanitizeIssue

/-- `SecurityAgent._analyze_file` post-processing: issues without a
`file` key get the analysed filename, then everything is sanitised. -/
def securityFileIssues (filename : String) (raw : List Issue) : List Issue :=
  sanitizeIssues (raw.map fun i =>
    match i.file with
    | none => { i with file := some filename }
    | some _ => i)

/-- `SecurityAgent.analyze`: collect the per-file sanitised issues and
tally the summary by the `severity` key. -/
def securityAnalyze (files : List (String × List Issue)) : AgentResult :=
  let all := (files.map fun p => securityFileIssues p.1 p.2).flatten
  { agent := "SecurityAgent", issues := all, error := none
    summary := some { total_issues := some all.length
                      critical := some (countSeverity all "critical")
                      high := some (countSeverity all "high")
                      medium := some (countSeverity all "medium")
                      low := some (countSeverity all "low")
                      high_impact := none, medium_impact := none, low_impact := none
                      high_severity := none, medium_severity := none, low_severity := none } }

/-- `PerformanceAgent.analyze`: per-file issues are passed through
unsanitised; the summary tallies the `impact` key. -/
def performanceAnalyze (files : List (String × List Issue)) : AgentResult :=
  let all := (files.map Prod.snd).flatten
  { agent := "PerformanceAgent", issues := all, error := none
    summary := some { total_issues := some all.length
                      critical := none, high := none, medium := none, low := none
                      high_impact := some (countImpact all "high")
                      medium_impact := some (countImpact all "medium")
                      low_impact := some (countImpact all "low")
                      high_severity := none, medium_severity := none, low_severity := none } }

/-- `ArchitectureAgent.analyze`: per-file issues are passed through
unsanitised; the summary tallies the `severity` key under `*_severity`. -/
def architectureAnalyze (files : List (String × List Issue)) : AgentResult :=
  let all := (files.map Prod.snd).flatten
  { agent := "ArchitectureAgent", issues := all, error := none
    summary := some { total_issues := some all.length
                      critical := none, high := none, medium := none, low := none
                      high_impact := none, medium_impact := none, low_impact := none
                      high_severity := some (countSeverity all "high")
                      medium_severity := some (countSeverity all "medium")
                      low_severity := some (countSeverity all "low") } }

/-- `QualityAgent.analyze`: same shape as the architecture agent. -/
def qualityAnalyze (files : List (String × List Issue)) : AgentResult :=
  let all := (files.map Prod.snd).flatten
  { agent := "QualityAgent", issues := all, error := none
    summary := some { total_issues := some all.length
                      critical := none, high := none, medium := none, low := none
                      high_impact := none, medium_impact := none, low_impact := none
                      high_severity := some (countSeverity all "high")
                      medium_severity := some (countSeverity all "medium")
                      low_severity := some (countSeverity all "low") } }

/-- The fixed roster `self.agents` of `AgentOrchestrator.__init__`. -/
inductive AgentKind
  | security
  | performance
  | architecture
  | quality
deriving DecidableEq

def agentKey : AgentKind → String
  | .security => "security"
  | .performance => "performance"
  | .architecture => "architecture"
  | .quality => "quality"

def agentAnalyze : AgentKind → List (String × List Issue) → AgentResult
  | .security => securityAnalyze
  | .performance => performanceAnalyze
  | .architecture => architectureAnalyze
  | .quality => qualityAnalyze

/-- A job run of the real system: each dispatched agent either returns
its constructed result dict or raises. -/
def systemRoster (agents : List (AgentKind × Except String (List (String × List Issue)))) :
    List (String × Except String AgentResult) :=
  agents.map (fun p => (agentKey p.1, p.2.map (agentAnalyze p.1)))

/-- The orchestrator applied to results produced by this repository's
agents. -/
def systemAnalyzePr (agents : List (AgentKind × Except String (List (String × List Issue)))) :
    OrchResults :=
  analyzePr (systemRoster agents)

/-! ## Task store and job lifecycle (src/main.py) -/

/-- `TaskStatus` of src/main.py. -/
inductive TaskStatus
  | pending
  | processing
  | completed
  | failed
deriving DecidableEq

/-- Position of a status in the lifecycle order
Pending → Processing → {Completed | Failed}; the two terminal states share
a rank and are mutually exclusive. -/
def statusRank : TaskStatus → Nat
  | .pending => 0
  | .processing => 1
  | .completed => 2
  | .failed => 2

/-- The `TaskData` record persisted per task.  `results` is the opaque
serialised `PRAnalysisResult` payload. -/
structure TaskData where
  status : TaskStatus
  created_at : String
  repo_url : String
  pr_number : Int
  results : Option String
  error : Option String
deriving DecidableEq

/-- `get_task` of src/main.py.  `redisConf` is whether a Redis client is
configured.  `redisStore` is the persisted key-value view (`None` =
missing key) and `decode` models `TaskData(**json.loads(data))`, which
raises on a corrupt payload; the surrounding `try`/`except Exception`
then falls back to the in-process `tasks_store` (whose entries were
produced by `model_dump` and always decode, hence `memStore` yields
`TaskData` directly).  A Redis transport error takes the same `except`
branch as a corrupt payload. -/
def getTask (redisConf : Bool) (decode : String → Except String TaskData)
    (redisStore : String → Option String) (memStore : String → Option TaskData)
    (taskId : String) : Except String (Option TaskData) :=
  if redisConf then
    match redisStore ("task:" ++ taskId) with
    | some payload =>
      match decode payload with
      | .ok td => .ok (some td)
      | .error _ => .ok (memStore taskId)
    | none => .ok none
  else .ok (memStore taskId)

/-- The sequence of statuses `process_pr_analysis` writes to the store
for one task, given whether `get_task` finds the record before the
analysis (`foundStart`), whether `CodeReviewAgentSystem(...).analyze_pr`
returns normally (`analysisOk`), and whether the record is still found
at the final read (`foundEnd`).  `get_task` and `save_task` themselves
never raise (they catch their backend errors), so the only exception
source is the analysis, which runs after the `PROCESSING` write. -/
def processWrites (foundStart analysisOk foundEnd : Bool) : List TaskStatus :=
  (if foundStart then [.processing] else []) ++
  (if foundEnd then [if analysisOk then .completed else .failed] else [])

/-- The full observable status sequence of a job: the `analyze_pr`
endpoint persists the task as `PENDING`, then the background
`process_pr_analysis` performs its writes. -/
def observedStatuses (foundStart analysisOk foundEnd : Bool) : List TaskStatus :=
  .pending :: processWrites foundStart analysisOk foundEnd

/-- The `/analyze-pr` request path: the `rate_limit` decorator first runs
`check_rate_limit`; when denied it raises HTTP 429 before the endpoint
body ever runs (no task is created); when allowed it performs the
`get_remaining_requests` read (itself another check) and then the
endpoint body creates the `PENDING` task under a fresh `taskId` and
returns it.  The result is the created task id or the admission error;
the second and third components are the final limiter and task stores. -/
def analyzePrRoute (lim : String → List ℚ) (limKey : String) (now : ℚ) (maxReq window : Int)
    (tasks : String → Option TaskData) (taskId createdAt repoUrl : String) (prNumber : Int) :
    Except String String × (String → List ℚ) × (String → Option TaskData) :=
  let c := memCheck lim limKey now maxReq window
  if c.1.1 then
    let r := getRemaining c.2 limKey now maxReq window
    let td : TaskData := { status := .pending, created_at := createdAt, repo_url := repoUrl
                           pr_number := prNumber, results := none, error := none }
    (.ok taskId, r.2, fun i => if i = taskId then some td else tasks i)
  else
    (.error "Rate limit exceeded", c.2, tasks)

/-! ## Supporting definitions for the verification -/

/-- Correspondence between an in-memory limiter store and a Redis limiter
store: per key, the list is a duplicate-free list of whole-second
timestamps (given by an integer list `lk`), the sorted set holds exactly
those integers, and all entries are non-negative and below `bound`. -/
def StoresRel (mem : String → List ℚ) (rds : String → Finset Int) (bound : Int) : Prop :=
  ∀ k, ∃ lk : List Int, mem k = lk.map (fun n : Int => (n : ℚ)) ∧ lk.Nodup ∧
    lk.toFinset = rds k ∧ ∀ t ∈ lk, 0 ≤ t ∧ t < bound

/-- The aggregation bucket of an issue: `issue.get("file", "unknown")`. -/
def bucketOf (i : Issue) : String := i.file.getD "unknown"

/-- Well-formed aggregation state: every tagged issue sits in the group
named by its own bucket. -/
def GroupsWF (gs : List FileGroup) : Prop :=
  ∀ g ∈ gs, ∀ t ∈ g.issues, bucketOf t.issue = g.name

/-- Concrete job input whose single (quality-agent) issue carries an
empty-string `file` value. -/
def emptyFileInput : List (AgentKind × Except String (List (String × List Issue))) :=
  [(.quality, .ok [("app.py", [{ file := some "", line := some 3,
                                 severity := some "high", impact := none }])])]

/-- Concrete job input whose single (performance-agent) issue carries the
non-positive line number 0. -/
def nonpositiveLineInput : List (AgentKind × Except String (List (String × List Issue))) :=
  [(.performance, .ok [("m.py", [{ file := some "m.py", line := some 0,
                                   severity := none, impact := some "high" }])])]

/-- Concrete orchestrator roster for the bucket-rule witness: one agent
reporting one issue with an absent `file`. -/
def wBucketRoster : List (String × Except String AgentResult) :=
  [("security", .ok { agent := "SecurityAgent"
                      issues := [{ file := none, line := none, severity := none, impact := none }]
                      summary := none, error := none })]

/-- The file group the roster `wBucketRoster` aggregates to. -/
def wBucketGroup : FileGroup :=
  { name := "unknown"
    issues := [{ issue := { file := none, line := none, severity := none, impact := none }
                 detected_by := "security" }]
    agent_breakdown := [("security", 1)] }

/-- The tagged issue inside `wBucketGroup`. -/
def wBucketTagged : TaggedIssue :=
  { issue := { file := none, line := none, severity := none, impact := none }
    detected_by := "security" }

/-- Concrete security-agent input for the line-invariant witness. -/
def wLineFiles : List (String × List Issue) :=
  [("f.py", [{ file := some "f.py", line := some 5, severity := none, impact := none }])]

/-- The (already saturated) issue of `wLineFiles`. -/
def wLineIssue : Issue :=
  { file := some "f.py", line := some 5, severity := none, impact := none }

/-- A decoder that rejects every persisted payload, for the `get_task`
theorems. -/
def wDecode : String → Except String TaskData := fun _ => .error "invalid payload"

/-- A concrete task record sitting in the in-process fallback map, for
the `get_task` counterexample (reachable: `save_task` writes
`tasks_store` whenever the Redis `set` raises). -/
def wTask : TaskData :=
  { status := .completed, created_at := "2024-01-01T00:00:00", repo_url := "r"
    pr_number := 1, results := none, error := none }

/-! ## Supporting lemmas -/

/-- One limiter call at the whole-second timestamp `(m : ℚ)` on related
stores yields the same `(allowed, count)` pair on both backends and
re-relates the stores with the bound advanced past `m`. -/
theorem check_step_agree {mem : String → List ℚ} {rds : String → Finset Int} {bound : Int}
    (key : String) (now : ℚ) (m maxReq window : Int) (hm : now = (m : ℚ))
    (hrel : StoresRel mem rds bound) (hnow : 0 ≤ m) (hb : bound ≤ m) :
    (memCheck mem key now maxReq window).1 = (redisCheck rds key now maxReq window).1 ∧
    StoresRel (memCheck mem key now maxReq window).2 (redisCheck rds key now maxReq window).2
      (m + 1) := by
  subst hm
  obtain ⟨lk, hmap, hnd, hfin, hbdd⟩ := hrel key
  have hmemfilter : ((lk.map fun n : Int => (n : ℚ)).filter (fun t => (m : ℚ) - (window : ℚ) < t))
      = (lk.filter (fun n => m - window < n)).map (fun n : Int => (n : ℚ)) := by
    rw [List.filter_map]
    congr 1
    apply List.filter_congr
    intro n _
    simp only [Function.comp_apply]
    apply decide_eq_decide.mpr
    rw [← Int.cast_sub, Int.cast_lt]
  have hknd : (lk.filter (fun n => decide (m - window < n))).Nodup := hnd.filter _
  have hnotmem : m ∉ lk.filter (fun n => decide (m - window < n)) := by
    intro hmem
    have := hbdd m (List.mem_of_mem_filter hmem)
    omega
  have hkfin : (lk.filter (fun n => decide (m - window < n))).toFinset
      = (rds key).filter (fun t => t < 0 ∨ m - window < t) := by
    ext t
    simp only [List.mem_toFinset, List.mem_filter, Finset.mem_filter, ← hfin,
      decide_eq_true_eq]
    constructor
    · rintro ⟨ht, hlt⟩
      exact ⟨ht, Or.inr hlt⟩
    · rintro ⟨ht, hneg | hlt⟩
      · exact absurd (hbdd t ht).1 (by omega)
      · exact ⟨ht, hlt⟩
  have hnotmem' : m ∉ (rds key).filter (fun t => t < 0 ∨ m - window < t) := by
    rw [← hkfin]
    intro h
    exact hnotmem (List.mem_toFinset.mp h)
  have hcardeq : ((rds key).filter (fun t => t < 0 ∨ m - window < t)).card
      = (lk.filter (fun n => decide (m - window < n))).length := by
    rw [← hkfin, List.toFinset_card_of_nodup hknd]
  have hcount : ((lk.filter (fun n => decide (m - window < n))).map (fun n : Int => (n : ℚ))
        ++ [(m : ℚ)]).length
      = (insert m ((rds key).filter (fun t => t < 0 ∨ m - window < t))).card := by
    rw [Finset.card_insert_of_not_mem hnotmem', List.length_append, List.length_map, hcardeq]
    rfl
  constructor
  · simp only [memCheck, redisCheck, redisPipeline, Int.floor_intCast]
    rw [hmap, hmemfilter]
    rw [show ((((lk.filter fun n => decide (m - window < n)).map (fun n : Int => (n : ℚ))
          ++ [(m : ℚ)]).length : Int))
        = ((insert m ((rds key).filter fun t => t < 0 ∨ m - window < t)).card : Int) from
          congrArg _ hcount]
  · intro k
    by_cases hk : k = key
    · subst hk
      simp only [memCheck, redisCheck, redisPipeline, Int.floor_intCast, if_pos,
        eq_self_iff_true, if_true]
      refine ⟨lk.filter (fun n => decide (m - window < n)) ++ [m], ?_, ?_, ?_, ?_⟩
      · rw [hmap, hmemfilter, List.map_append]
        rfl
      · rw [List.nodup_append]
        exact ⟨hknd, List.nodup_singleton _, by
          intro a ha hb'
          simp only [List.mem_singleton] at hb'
          subst hb'
          exact hnotmem ha⟩
      · ext t
        simp only [List.toFinset_append, Finset.mem_union, List.mem_toFinset,
          Finset.mem_insert, List.mem_singleton, ← hkfin, List.mem_toFinset]
        tauto
      · intro t ht
        rcases List.mem_append.mp ht with h | h
        · have := hbdd t (List.mem_of_mem_filter h)
          omega
        · simp only [List.mem_singleton] at h
          subst h
          omega
    · simp only [memCheck, redisCheck, redisPipeline, if_neg hk]
      obtain ⟨lk', h1, h2, h3, h4⟩ := hrel k
      exact ⟨lk', h1, h2, h3, fun t ht => by have := h4 t ht; omega⟩

/-- Induction over a call sequence of strictly increasing, non-negative,
whole-second timestamps: related stores produce identical result
streams. -/
theorem memRun_eq_redisRun_aux :
    ∀ (calls : List (String × ℚ × Int × Int)) (mem : String → List ℚ)
      (rds : String → Finset Int) (bound : Int),
      StoresRel mem rds bound →
      List.Pairwise (· < ·) (callTimes calls) →
      (∀ τ ∈ callTimes calls, τ.den = 1 ∧ 0 ≤ τ ∧ (bound : ℚ) ≤ τ) →
      memRun mem calls = redisRun rds calls := by
  intro calls
  induction calls with
  | nil => intro mem rds bound _ _ _; rfl
  | cons c rest ih =>
    obtain ⟨key, now, maxReq, window⟩ := c
    intro mem rds bound hrel hpw hbd
    have hhead := hbd now (by simp [callTimes])
    have hm : now = ((now.num : Int) : ℚ) := (Rat.coe_int_num_of_den_eq_one hhead.1).symm
    have hnow : 0 ≤ now.num := by
      have h := hhead.2.1
      rw [hm] at h
      exact_mod_cast h
    have hb : bound ≤ now.num := by
      have h := hhead.2.2
      rw [hm] at h
      exact_mod_cast h
    have hstep := check_step_agree key now now.num maxReq window hm hrel hnow hb
    have htimes : callTimes ((key, now, maxReq, window) :: rest) = now :: callTimes rest := rfl
    rw [htimes] at hpw hbd
    simp only [memRun, redisRun]
    refine congrArg₂ List.cons hstep.1
      (ih _ _ (now.num + 1) hstep.2 (List.pairwise_cons.mp hpw).2 ?_)
    intro τ hτ
    have h1 := hbd τ (List.mem_cons_of_mem _ hτ)
    have h2 := (List.pairwise_cons.mp hpw).1 τ hτ
    refine ⟨h1.1, h1.2.1, ?_⟩
    have hτm : τ = ((τ.num : Int) : ℚ) := (Rat.coe_int_num_of_den_eq_one h1.1).symm
    have hlt : now.num < τ.num := by
      rw [hm, hτm] at h2
      exact_mod_cast h2
    have h3 : now.num + 1 ≤ τ.num := by omega
    rw [hτm]
    exact_mod_cast h3

/-- Every concrete agent reports `summary["total_issues"] = len(issues)`. -/
theorem agentAnalyze_total (k : AgentKind) (files : List (String × List Issue)) :
    (match (agentAnalyze k files).summary with
      | some s => s.total_issues.getD 0
      | none => 0) = (agentAnalyze k files).issues.length := by
  cases k <;> rfl

/-- The `total_issues` component of the summary accumulator adds exactly
the report's own `total_issues` contribution. -/
theorem addSummary_fst (acc : Nat × Nat × Nat) (r : AgentResult) :
    (addSummary acc r).1 = acc.1 + (match r.summary with
      | some s => s.total_issues.getD 0
      | none => 0) := by
  cases r with
  | mk agent issues summary error =>
    cases summary <;> simp [addSummary]

/-- Unfolds the summary fold into a sum of per-report contributions. -/
theorem foldl_addSummary_fst (reports : List (String × AgentResult)) :
    ∀ init : Nat × Nat × Nat,
      (reports.foldl (fun a kr => addSummary a kr.2) init).1
        = init.1 + (reports.map (fun kr => match kr.2.summary with
            | some s => s.total_issues.getD 0
            | none => 0)).sum := by
  induction reports with
  | nil => intro init; simp
  | cons kr rest ih =>
    intro init
    simp only [List.foldl_cons, List.map_cons, List.sum_cons, ih, addSummary_fst]
    omega

/-- Inserting an issue whose bucket is `name` preserves well-formed
grouping. -/
theorem insertIssue_wf {gs : List FileGroup} {name agentKey' : String} {i : Issue}
    (hname : bucketOf i = name) (h : GroupsWF gs) :
    GroupsWF (insertIssue name agentKey' i gs) := by
  induction gs with
  | nil =>
    intro g hg t ht
    simp only [insertIssue, List.mem_singleton] at hg
    subst hg
    simp only [List.mem_singleton] at ht
    subst ht
    exact hname
  | cons g0 rest ih =>
    intro g hg t ht
    by_cases hn : g0.name = name
    · simp only [insertIssue, if_pos hn] at hg
      rcases List.mem_cons.mp hg with hg | hg
      · subst hg
        simp only at ht
        rcases List.mem_append.mp ht with h1 | h1
        · exact h g0 (List.mem_cons_self _ _) t h1
        · simp only [List.mem_singleton] at h1
          subst h1
          simpa [hn] using hname
      · exact h g (List.mem_cons_of_mem _ hg) t ht
    · simp only [insertIssue, if_neg hn] at hg
      rcases List.mem_cons.mp hg with hg | hg
      · subst hg
        exact h g (List.mem_cons_self _ _) t ht
      · exact ih (fun g' hg' => h g' (List.mem_cons_of_mem _ hg')) g hg t ht

/-- Folding one report's issues into a well-formed grouping keeps it
well-formed. -/
theorem foldl_addIssue_wf (agentKey' : String) (issues : List Issue) :
    ∀ gs : List FileGroup, GroupsWF gs →
      GroupsWF (issues.foldl (fun gs' i => addIssue gs' agentKey' i) gs) := by
  induction issues with
  | nil => intro gs h; exact h
  | cons i rest ih =>
    intro gs h
    exact ih _ (insertIssue_wf rfl h)

/-- The orchestrator's per-file aggregation is well-formed grouping. -/
theorem aggregateFiles_wf (reports : List (String × AgentResult)) :
    GroupsWF (aggregateFiles reports) := by
  rw [aggregateFiles]
  suffices h : ∀ gs : List FileGroup, GroupsWF gs →
      GroupsWF (reports.foldl
        (fun gs kr => kr.2.issues.foldl (fun gs' i => addIssue gs' kr.1 i) gs) gs) by
    exact h [] (fun g hg => absurd hg (List.not_mem_nil g))
  induction reports with
  | nil => intro gs h; exact h
  | cons kr rest ih =>
    intro gs h
    exact ih _ (foldl_addIssue_wf kr.1 kr.2.issues gs h)

/-! ## Claim theorems -/

/-- C1.  The claim states that for every key, `maxRequests = N` and
window, the limiter's check records the current timestamp, discards
entries older than `now - window`, and in particular that the `(N+1)`-th
request inside the window is denied.  The in-memory backend satisfies
this, but the Redis backend stores the timestamp as the sorted-set member
`str(int(time.time()))`: two checks within the same second collapse into
one member, so with `maxRequests = 1` the second same-second request for
the same key is still reported `(allowed = true, count = 1)` instead of
being denied, while the in-memory backend denies it with count 2. -/
theorem redis_same_second_request_not_denied :
    redisRun (fun _ => (∅ : Finset Int)) [("client", 100, 1, 60), ("client", 100, 1, 60)]
      = [(true, 1), (true, 1)] ∧
    memRun (fun _ => ([] : List ℚ)) [("client", 100, 1, 60), ("client", 100, 1, 60)]
      = [(true, 1), (false, 2)] := by
  constructor
  · norm_num [redisRun, redisCheck, redisPipeline, Finset.filter_insert,
      Finset.filter_empty, Finset.filter_singleton]
  · norm_num [memRun, memCheck, List.filter]

/-- C2.  Any exception raised inside an analyzer's `analyze` call is
absorbed by `_run_agent` into an error report with empty findings and the
message recorded; the job is not aborted, every dispatched agent's entry
is kept (the results are exactly the elementwise `_run_agent` outputs),
and `agents_completed` equals `total_agents` for every roster. -/
theorem agent_failure_isolated (roster : List (String × Except String AgentResult)) :
    (analyzePr roster).summary.agents_completed = (analyzePr roster).summary.total_agents ∧
    (analyzePr roster).agents = roster.map (fun p => (p.1, runAgent p.1 p.2)) ∧
    ∀ k e, runAgent k (.error e)
      = { agent := k, issues := [], summary := none, error := some e } :=
  ⟨rfl, rfl, fun _ _ => rfl⟩

/-- C3.  For every system job run (each agent either returning its
constructed report or raising), the aggregated `total_issues` equals the
sum over all agent reports of the number of findings in that report;
failed agents contribute zero findings. -/
theorem total_findings_eq_sum_of_agent_findings
    (agents : List (AgentKind × Except String (List (String × List Issue)))) :
    (systemAnalyzePr agents).summary.total_issues
      = ((systemAnalyzePr agents).agents.map (fun kr => kr.2.issues.length)).sum := by
  rw [show (systemAnalyzePr agents).summary.total_issues
      = (((systemRoster agents).map (fun p => (p.1, runAgent p.1 p.2))).foldl
          (fun a kr => addSummary a kr.2) (0, 0, 0)).1 from rfl]
  rw [show (systemAnalyzePr agents).agents
      = (systemRoster agents).map (fun p => (p.1, runAgent p.1 p.2)) from rfl]
  rw [foldl_addSummary_fst]
  simp only [Nat.zero_add, systemRoster, List.map_map]
  congr 1
  apply List.map_congr_left
  intro p _
  simp only [Function.comp_apply]
  cases p with
  | mk kind outcome =>
    cases outcome with
    | error e => rfl
    | ok files => exact agentAnalyze_total kind files

/-- C4.  Whatever the record-lookup outcomes and the analysis outcome,
the sequence of status values written for a job is strictly increasing in
the order Pending → Processing → terminal, and at most one of Completed
and Failed ever appears; no write moves the status back. -/
theorem job_status_monotone :
    ∀ foundStart analysisOk foundEnd : Bool,
      List.Pairwise (fun a b => statusRank a < statusRank b)
        (observedStatuses foundStart analysisOk foundEnd) ∧
      ¬(TaskStatus.completed ∈ observedStatuses foundStart analysisOk foundEnd ∧
        TaskStatus.failed ∈ observedStatuses foundStart analysisOk foundEnd) := by
  decide

/-- C5.  Whenever the Redis interaction of a limiter check raises, the
check returns `(allowed = true, count = 0)` — fail-open — and no
exception reaches the caller. -/
theorem redis_error_fails_open (e : String) (maxReq : Int) :
    checkRedisCaught (.error e) maxReq = (true, 0) := rfl

/-- C6 counterexample.  The two limiter backends are not interchangeable,
in two ways.  First, on the two-call sequence with a repeated timestamp
the in-memory backend reports counts 1 and 2 while the Redis backend
collapses the same-second members and reports 1 and 1.  Second, even
with strictly increasing timestamps in distinct integer seconds the
backends disagree: at wall times 10.6s and 70.2s with a 60s window the
memory backend keeps the first entry (10.6 > 70.2 - 60) and denies the
second request with `maxRequests = 1`, while the Redis backend stores
score 10, discards it (`zremrangebyscore 0 10` is inclusive and
10 ≤ 70 - 60) and allows it with count 1. -/
theorem backends_differ_on_same_and_fractional_seconds :
    (memRun (fun _ => []) [("k", 50, 5, 30), ("k", 50, 5, 30)]
      ≠ redisRun (fun _ => ∅) [("k", 50, 5, 30), ("k", 50, 5, 30)]) ∧
    (memRun (fun _ => []) [("k", 53/5, 1, 60), ("k", 351/5, 1, 60)]
        = [(true, 1), (false, 2)] ∧
      redisRun (fun _ => ∅) [("k", 53/5, 1, 60), ("k", 351/5, 1, 60)]
        = [(true, 1), (true, 1)]) := by
  have h1 : ⌊(53/5 : ℚ)⌋ = 10 := by
    rw [Int.floor_eq_iff]
    norm_num
  have h2 : ⌊(351/5 : ℚ)⌋ = 70 := by
    rw [Int.floor_eq_iff]
    norm_num
  refine ⟨?_, ?_, ?_⟩
  · norm_num [memRun, memCheck, redisRun, redisCheck, redisPipeline, List.filter,
      Finset.filter_insert, Finset.filter_empty, Finset.filter_singleton]
  · norm_num [memRun, memCheck, List.filter]
  · norm_num [redisRun, redisCheck, redisPipeline, h1, h2, Finset.filter_insert,
      Finset.filter_empty, Finset.filter_singleton]

/-- C6, amended.  Starting from empty stores, the shared-store backend
and the local in-process backend return the same `(allowed, count)`
stream for every single-process sequence of check calls whose wall-clock
timestamps are whole seconds (`den = 1`, so the float clock and its
integer truncation coincide), strictly increasing and non-negative.
With a repeated second, or with sub-second fractions straddling the
window boundary, the backends disagree. -/
theorem backends_agree_on_whole_second_timestamps
    (calls : List (String × ℚ × Int × Int))
    (hinc : List.Pairwise (· < ·) (callTimes calls))
    (hsec : ∀ τ ∈ callTimes calls, τ.den = 1 ∧ 0 ≤ τ) :
    memRun (fun _ => []) calls = redisRun (fun _ => ∅) calls :=
  memRun_eq_redisRun_aux calls _ _ 0
    (fun _ => ⟨[], rfl, List.nodup_nil, by simp, by simp⟩) hinc
    (fun τ hτ => ⟨(hsec τ hτ).1, (hsec τ hτ).2, by exact_mod_cast (hsec τ hτ).2⟩)

/-- C6 witness: a concrete three-call sequence of strictly increasing
whole-second non-negative timestamps on which both backends agree. -/
theorem backends_agree_on_whole_second_timestamps_witness :
    (List.Pairwise (· < ·) (callTimes [("a", 3, 10, 60), ("a", 5, 10, 60), ("b", 9, 2, 4)]) ∧
      ∀ τ ∈ callTimes [("a", 3, 10, 60), ("a", 5, 10, 60), ("b", 9, 2, 4)],
        τ.den = 1 ∧ 0 ≤ τ) ∧
    memRun (fun _ => []) [("a", 3, 10, 60), ("a", 5, 10, 60), ("b", 9, 2, 4)]
      = redisRun (fun _ => ∅) [("a", 3, 10, 60), ("a", 5, 10, 60), ("b", 9, 2, 4)] :=
  ⟨⟨by norm_num [callTimes], by norm_num [callTimes, Rat.den_ofNat]⟩,
    backends_agree_on_whole_second_timestamps _ (by norm_num [callTimes])
      (by norm_num [callTimes, Rat.den_ofNat])⟩

/-- C7.  When the limiter check of the `/analyze-pr` request path denies
the submission, the route surfaces the admission-denied failure and the
task store is returned unchanged — no job is created and no task id is
returned. -/
theorem denied_submission_creates_no_job (lim : String → List ℚ) (limKey : String)
    (now : ℚ) (maxReq window : Int) (tasks : String → Option TaskData)
    (taskId createdAt repoUrl : String) (prNumber : Int)
    (h : (memCheck lim limKey now maxReq window).1.1 = false) :
    (analyzePrRoute lim limKey now maxReq window tasks taskId createdAt repoUrl prNumber).1
        = .error "Rate limit exceeded" ∧
    (analyzePrRoute lim limKey now maxReq window tasks taskId createdAt repoUrl prNumber).2.2
        = tasks := by
  rw [analyzePrRoute]
  simp [h]

/-- C7 witness: one prior request in the window with `maxRequests = 1`
makes the check deny, the route error out and the task store stay
untouched. -/
theorem denied_submission_creates_no_job_witness :
    ((memCheck (fun _ => [90]) "c" 100 1 60).1.1 = false) ∧
    ((analyzePrRoute (fun _ => [90]) "c" 100 1 60 (fun _ => none) "id1" "t" "r" 7).1
        = .error "Rate limit exceeded" ∧
     (analyzePrRoute (fun _ => [90]) "c" 100 1 60 (fun _ => none) "id1" "t" "r" 7).2.2
        = (fun _ => none)) :=
  ⟨by norm_num [memCheck, List.filter],
   denied_submission_creates_no_job (fun _ => [90]) "c" 100 1 60 (fun _ => none)
      "id1" "t" "r" 7 (by norm_num [memCheck, List.filter])⟩

/-- C8 counterexample.  A finding whose `file` field is the empty string
is not grouped under `"unknown"`: aggregation applies the `"unknown"`
default only to an absent key, so the job with one empty-`file` quality
finding yields the single bucket named `""`. -/
theorem empty_file_not_bucketed_unknown :
    ((systemAnalyzePr emptyFileInput).files.map (fun g => g.name)) = [""] ∧
    ("" : String) ≠ "unknown" := by decide

/-- C8, amended.  Aggregation groups every finding under its own `file`
string when the field is present — including the empty string — and
under the sentinel `"unknown"` exactly when the field is absent. -/
theorem file_bucket_rule (roster : List (String × Except String AgentResult))
    (g : FileGroup) (t : TaggedIssue)
    (hg : g ∈ (analyzePr roster).files) (ht : t ∈ g.issues) :
    (t.issue.file = none → g.name = "unknown") ∧
    (∀ s, t.issue.file = some s → g.name = s) := by
  have hwf : GroupsWF (analyzePr roster).files := by
    rw [show (analyzePr roster).files
      = aggregateFiles (roster.map (fun p => (p.1, runAgent p.1 p.2))) from rfl]
    exact aggregateFiles_wf _
  have hb := hwf g hg t ht
  constructor
  · intro hnone
    rw [← hb, bucketOf, hnone]
    rfl
  · intro s hs
    rw [← hb, bucketOf, hs]
    rfl

/-- C8 witness: the absent-`file` finding of `wBucketRoster` lands in the
`"unknown"` bucket. -/
theorem file_bucket_rule_witness :
    (wBucketGroup ∈ (analyzePr wBucketRoster).files ∧ wBucketTagged ∈ wBucketGroup.issues) ∧
    ((wBucketTagged.issue.file = none → wBucketGroup.name = "unknown") ∧
     (∀ s, wBucketTagged.issue.file = some s → wBucketGroup.name = s)) :=
  ⟨⟨by decide, by decide⟩,
    file_bucket_rule wBucketRoster wBucketGroup wBucketTagged (by decide) (by decide)⟩

/-- C9 counterexample.  A finding with the non-positive line number 0
reported by the performance agent reaches the aggregated output
unchanged: neither that agent nor the orchestrator normalises line
numbers, so the invariant "line is absent or ≥ 1" fails on the system's
output. -/
theorem nonpositive_line_reaches_aggregated_output :
    ((systemAnalyzePr nonpositiveLineInput).files.map
        (fun g => g.issues.map (fun t => t.issue.line)))
      = [[some 0]] ∧ ¬((1 : Int) ≤ 0) := by decide

/-- C9, amended.  The security agent's findings do satisfy the
invariant: its `_sanitize_issues` collapses every non-positive line to
absent, so every issue in a `SecurityAgent.analyze` result has a line
that is absent or ≥ 1.  The other agents do not normalise lines. -/
theorem security_agent_line_invariant (files : List (String × List Issue)) (i : Issue)
    (hi : i ∈ (securityAnalyze files).issues) :
    ∀ n, i.line = some n → 1 ≤ n := by
  intro n hn
  have hmem : i ∈ (files.map fun p => securityFileIssues p.1 p.2).flatten := hi
  rw [List.mem_flatten] at hmem
  obtain ⟨l, hl, hil⟩ := hmem
  rw [List.mem_map] at hl
  obtain ⟨p, _, hp⟩ := hl
  subst hp
  rw [securityFileIssues, sanitizeIssues, List.mem_map] at hil
  obtain ⟨j, _, hj⟩ := hil
  subst hj
  rw [sanitizeIssue] at hn
  simp only at hn
  cases hjl : j.line with
  | none =>
    rw [hjl] at hn
    exact Option.noConfusion hn
  | some m =>
    rw [hjl] at hn
    change (if m < 1 ∨ m = 0 then none else some m) = some n at hn
    by_cases hm : m < 1 ∨ m = 0
    · rw [if_pos hm] at hn
      exact Option.noConfusion hn
    · rw [if_neg hm] at hn
      simp only [Option.some.injEq] at hn
      subst hn
      omega

/-- C9 witness: the concrete security result on `wLineFiles` contains
`wLineIssue`, whose line 5 satisfies the invariant. -/
theorem security_agent_line_invariant_witness :
    (wLineIssue ∈ (securityAnalyze wLineFiles).issues) ∧ (1 : Int) ≤ 5 :=
  ⟨by decide, security_agent_line_invariant wLineFiles wLineIssue (by decide) 5 rfl⟩

/-- C10 counterexample.  The claim says a persisted payload that fails
to decode yields absent; but the `except` branch of `get_task` returns
the in-process fallback entry when one exists for the id, so with a
corrupt Redis payload and `wTask` in `tasks_store` the caller receives
the job, not absence. -/
theorem corrupt_payload_returns_fallback_not_absent :
    getTask true wDecode (fun _ => some "corrupt") (fun _ => some wTask) "t3"
        = .ok (some wTask) ∧
    some wTask ≠ (none : Option TaskData) :=
  ⟨rfl, by simp⟩

/-- C10, amended.  `get_task` returns absent for a missing id; when the
persisted payload fails to decode it falls back to the in-process
`tasks_store`, returning that entry when present and absent otherwise;
and it never surfaces an exception to the caller. -/
theorem get_task_missing_absent_corrupt_falls_back
    (decode : String → Except String TaskData)
    (redisStore : String → Option String) (memStore : String → Option TaskData)
    (taskId : String) :
    (redisStore ("task:" ++ taskId) = none →
        getTask true decode redisStore memStore taskId = .ok none) ∧
    (∀ payload e, redisStore ("task:" ++ taskId) = some payload →
        decode payload = .error e →
        getTask true decode redisStore memStore taskId = .ok (memStore taskId)) ∧
    (∀ redisConf : Bool, ∃ r, getTask redisConf decode redisStore memStore taskId = .ok r) := by
  refine ⟨?_, ?_, ?_⟩
  · intro h
    rw [getTask]
    simp [h]
  · intro payload e h1 h2
    rw [getTask]
    simp [h1, h2]
  · intro redisConf
    cases redisConf with
    | false => exact ⟨memStore taskId, rfl⟩
    | true =>
      rw [getTask]
      simp only [if_true]
      cases h : redisStore ("task:" ++ taskId) with
      | none =>
        simp only [h]
        exact ⟨none, rfl⟩
      | some payload =>
        simp only [h]
        cases h2 : decode payload with
        | ok td =>
          simp only [h2]
          exact ⟨some td, rfl⟩
        | error e =>
          simp only [h2]
          exact ⟨memStore taskId, rfl⟩

/-- C10 witness: a missing id yields `.ok none`, and a corrupt payload
with an empty in-process fallback also yields `.ok none`, through the
embedded `get_task`. -/
theorem get_task_missing_absent_corrupt_falls_back_witness :
    getTask true wDecode (fun _ => none) (fun _ => none) "t1" = .ok none ∧
    getTask true wDecode (fun _ => some "corrupt") (fun _ => none) "t2" = .ok none :=
  ⟨(get_task_missing_absent_corrupt_falls_back wDecode (fun _ => none)
      (fun _ => none) "t1").1 rfl,
   by
     have h := (get_task_missing_absent_corrupt_falls_back wDecode
       (fun _ => some "corrupt") (fun _ => none) "t2").2.1 "corrupt" "invalid payload" rfl rfl
     exact h⟩

end AgentPRM
